import Mathlib

/-!
Verification of the Quill-MCP memory/context engine against its specification.

The definitions below are a shallow embedding of the Python sources:
- `src/quill_mcp/context_engine.py` (token estimation, relevance scoring,
  budget-constrained selection, context session), and
- `src/quill_mcp/database.py` (store state, FTS5 index triggers, CRUD
  operations, project statistics).

Modelling conventions:
- Python `int` is modelled by `Int` (or `Nat` where the program only ever
  produces non-negative counts, e.g. token estimates from `estimate_tokens`).
- Python `float` is modelled by `Rat`; every weight in the scorer is exactly
  representable.
- Python strings are Lean `String`s; `str.lower`, substring containment,
  and the ASCII regex character classes are modelled over `Char` lists.
- SQLite tables are lists of row structures; the FTS5 triggers of
  `_create_fts_triggers` are folded into the corresponding state-transition
  functions, which models SQLite executing the trigger inside the same
  statement (one atomic unit).  Cascade deletes fire the delete triggers in
  SQLite, which is modelled in `applyOp` for `deleteProject`.
-/

/-! ### Basic string helpers (Python `str` operations, ASCII model) -/

/-- Python whitespace characters recognised by `str.strip()` / `str.split()`
and the regex class backslash-s (ASCII subset). -/
def isPySpace (c : Char) : Bool :=
  c == ' ' || c == '\t' || c == '\n' || c == '\r' || c == '\x0b' || c == '\x0c'

/-- Python `str.strip()`: remove leading and trailing whitespace. -/
def pyStrip (s : String) : String :=
  String.mk (((s.data.dropWhile isPySpace).reverse.dropWhile isPySpace).reverse)

/-- Lower-casing, Python `str.lower()` (ASCII model via `Char.toLower`). -/
def lowerStr (s : String) : String :=
  String.mk (s.data.map Char.toLower)

/-- Boolean list-prefix test used to implement substring containment. -/
def listPrefixB : List Char → List Char → Bool
  | [], _ => true
  | _ :: _, [] => false
  | a :: as, b :: bs => a == b && listPrefixB as bs

/-- Boolean list-infix test: does `needle` occur contiguously in `hay`?
Mirrors the Python substring operator `in` (the empty string is contained
in every string). -/
def listInfixB (needle : List Char) : List Char → Bool
  | [] => needle.isEmpty
  | b :: bs => listPrefixB needle (b :: bs) || listInfixB needle bs

/-- Python `needle in hay` on strings. -/
def strContains (needle hay : String) : Bool :=
  listInfixB needle.data hay.data

/-! ### Context engine: data type and token estimation
(`context_engine.py`, `ContextItem` and `ContextEngine.estimate_tokens`) -/

/-- `ContextItem` dataclass of `context_engine.py`. -/
structure ContextItem where
  content_type : String
  entity_id : Int
  title : String
  content : String
  relevance_score : Rat
  token_estimate : Nat
  importance : String
deriving DecidableEq

/-- `ContextEngine.estimate_tokens`: `return max(1, len(text) // 4)`.
Python `//` on non-negative integers is `Nat` division. -/
def estimateTokens (text : String) : Nat :=
  max 1 (text.length / 4)

/-! ### Stable sorting
Python `sorted(..., key=..., reverse=True)` is a stable sort; any stable
sort agrees with it extensionally, so we use stable insertion sort. -/

/-- Insert `x` in front of the first element `y` with `le x y`;
stable for a total preorder `le`. -/
def insertLe (le : α → α → Bool) (x : α) : List α → List α
  | [] => [x]
  | y :: ys => if le x y then x :: y :: ys else y :: insertLe le x ys

/-- Stable insertion sort. -/
def insertionSort (le : α → α → Bool) : List α → List α
  | [] => []
  | x :: xs => insertLe le x (insertionSort le xs)

/-! ### Budgeted selection (`ContextEngine.optimize_context_for_tokens`) -/

/-- The truncated copy built when an item does not fit but more than the
100-token threshold remains: content cut to `remaining * 4` characters plus
a marker, and `token_estimate` set to exactly the remaining budget. -/
def truncateItem (item : ContextItem) (remaining : Nat) : ContextItem :=
  ⟨item.content_type, item.entity_id, item.title,
    String.mk (item.content.data.take (remaining * 4)) ++ "... [truncated]",
    item.relevance_score, remaining, item.importance⟩

/-- The inner `for item in priority_group` loop of
`optimize_context_for_tokens`: accumulate items while they fit; on the first
item that does not fit, either append a truncated copy (remaining budget
above the 100-token threshold, running total becomes the whole budget) or
stop, and in both cases leave the rest of the group unprocessed (`break`). -/
def processGroup (working : Nat) :
    List ContextItem → List ContextItem → Nat → List ContextItem × Nat
  | [], selected, total => (selected, total)
  | item :: rest, selected, total =>
    if total + item.token_estimate ≤ working then
      processGroup working rest (selected ++ [item]) (total + item.token_estimate)
    else
      let remaining := working - total
      if 100 < remaining then
        (selected ++ [truncateItem item remaining], working)
      else
        (selected, total)

/-- The outer `for priority_group in [...]` loop: process each group in turn;
after a group, stop if the running total has reached the working budget. -/
def processGroups (working : Nat) :
    List (List ContextItem) → List ContextItem → Nat → List ContextItem × Nat
  | [], selected, total => (selected, total)
  | g :: gs, selected, total =>
    let r := processGroup working g selected total
    if working ≤ r.2 then r else processGroups working gs r.1 r.2

/-- `ContextEngine.optimize_context_for_tokens`, with the instance field
`self.working_tokens` passed explicitly as `working`.  Sorts candidates by
descending relevance (stable), partitions them into the three importance
tiers, and packs them under the budget. -/
def optimizeContextForTokens (working : Nat) (candidate_items : List ContextItem) :
    List ContextItem :=
  let sorted_items :=
    insertionSort (fun a b => decide (b.relevance_score ≤ a.relevance_score)) candidate_items
  let high := sorted_items.filter (fun item => item.importance == "main" || item.importance == "high")
  let medium := sorted_items.filter (fun item => item.importance == "medium")
  let low := sorted_items.filter (fun item =>
    !(item.importance == "main" || item.importance == "high" || item.importance == "medium"))
  (processGroups working [high, medium, low] [] 0).1

/-- Summed `token_estimate` of a selection. -/
def tokenSum (items : List ContextItem) : Nat :=
  (items.map ContextItem.token_estimate).sum

/-- Concrete candidate for C3: a high-tier item too large for the budget. -/
def c3BigItem : ContextItem :=
  ⟨"character", 1, "Mira", "Mira: a long biography", 2, 60, "main"⟩

/-- Concrete candidate for C3: a small normal-tier item. -/
def c3SmallItem : ContextItem :=
  ⟨"plot", 2, "Heist", "Heist: short", 1, 10, "normal"⟩

/-! ### Store data model (`database.py` schema) -/

/-- Row of the `projects` table (timestamps omitted: no claim concerns them). -/
structure ProjectRow where
  id : Int
  name : String
  description : String
  genre : String
  target_words : Int
  current_words : Int
deriving DecidableEq

/-- Row of the `characters` table.  The `relationships` TEXT column holds a
JSON object mapping names to relations; it is modelled by its list of keys
(the only part any code path inspects). -/
structure CharacterRow where
  id : Int
  project_id : Int
  name : String
  description : String
  personality : String
  backstory : String
  appearance : String
  relationships : List String
  importance : String
deriving DecidableEq

/-- Row of the `plots` table. -/
structure PlotRow where
  id : Int
  project_id : Int
  title : String
  description : String
  plot_type : String
  status : String
deriving DecidableEq

/-- Row of the `world_building` table. -/
structure WorldRow where
  id : Int
  project_id : Int
  name : String
  category : String
  description : String
  details : String
deriving DecidableEq

/-- Row of the `scenes` table. -/
structure SceneRow where
  id : Int
  project_id : Int
  chapter_number : Int
  scene_number : Int
  title : String
  summary : String
  content : String
  word_count : Int
  status : String
deriving DecidableEq

/-- Row of the `memory_search` FTS5 virtual table. -/
structure MemRow where
  content_type : String
  project_id : Int
  entity_id : Int
  title : String
  content : String
  metadata : String
deriving DecidableEq

/-- The durable store: the six entity tables plus the FTS5 index table.
SQLite tables are unordered; lists model their multisets of rows. -/
structure StoreState where
  projects : List ProjectRow
  characters : List CharacterRow
  plots : List PlotRow
  world_building : List WorldRow
  scenes : List SceneRow
  memory_search : List MemRow
deriving DecidableEq

/-- The store with no rows (freshly initialised schema). -/
def emptyStore : StoreState := ⟨[], [], [], [], [], []⟩

/-! ### FTS5 index projections (`_create_fts_triggers`) -/

/-- One `"key":"value"` JSON member. -/
def jsonPair (k v : String) : String := "\"" ++ k ++ "\":\"" ++ v ++ "\""

/-- `json_object` with one member. -/
def jsonObject1 (k v : String) : String := "\x7b" ++ jsonPair k v ++ "\x7d"

/-- `json_object` with two members. -/
def jsonObject2 (k1 v1 k2 v2 : String) : String :=
  "\x7b" ++ jsonPair k1 v1 ++ "," ++ jsonPair k2 v2 ++ "\x7d"

/-- Concatenated character content indexed by the character triggers:
`description || ' ' || personality || ' ' || backstory || ' ' || appearance`. -/
def charIndexContent (r : CharacterRow) : String :=
  r.description ++ " " ++ r.personality ++ " " ++ r.backstory ++ " " ++ r.appearance

/-- Metadata of a character index row:
`json_object('importance', ..., 'relationships', ...)` (the relationships
JSON text is represented by its joined key list). -/
def charIndexMeta (r : CharacterRow) : String :=
  jsonObject2 "importance" r.importance "relationships" (String.intercalate ";" r.relationships)

/-- Index row inserted by the `fts_characters_insert` trigger. -/
def charIndexRow (r : CharacterRow) : MemRow :=
  ⟨"character", r.project_id, r.id, r.name, charIndexContent r, charIndexMeta r⟩

/-- `fts_characters_update` trigger action on one matching index row:
overwrite title, content and metadata from the NEW row (`content_type`,
`project_id` and `entity_id` are left untouched). -/
def charUpdateMem (c : CharacterRow) (m : MemRow) : MemRow :=
  ⟨m.content_type, m.project_id, m.entity_id, c.name, charIndexContent c, charIndexMeta c⟩

/-- Index row inserted by the `fts_plots_insert` trigger. -/
def plotIndexRow (r : PlotRow) : MemRow :=
  ⟨"plot", r.project_id, r.id, r.title, r.description,
    jsonObject2 "plot_type" r.plot_type "status" r.status⟩

/-- `fts_plots_update` trigger action on one matching index row. -/
def plotUpdateMem (p : PlotRow) (m : MemRow) : MemRow :=
  ⟨m.content_type, m.project_id, m.entity_id, p.title, p.description,
    jsonObject2 "plot_type" p.plot_type "status" p.status⟩

/-- Concatenated world-building content indexed by the triggers:
`description || ' ' || details`. -/
def worldIndexContent (r : WorldRow) : String :=
  r.description ++ " " ++ r.details

/-- Index row inserted by the `fts_world_building_insert` trigger. -/
def worldIndexRow (r : WorldRow) : MemRow :=
  ⟨"world_building", r.project_id, r.id, r.name, worldIndexContent r,
    jsonObject1 "category" r.category⟩

/-- `fts_world_building_update` trigger action on one matching index row. -/
def worldUpdateMem (w : WorldRow) (m : MemRow) : MemRow :=
  ⟨m.content_type, m.project_id, m.entity_id, w.name, worldIndexContent w,
    jsonObject1 "category" w.category⟩

/-! ### Entity-level operations with their trigger side effects
Each constructor is one SQL statement on an entity table; `applyOp` performs
the row mutation together with the FTS5 trigger action of
`_create_fts_triggers` as one atomic unit (SQLite runs the trigger inside
the same statement).  A statement rejected by a PRIMARY KEY or FOREIGN KEY
constraint leaves the state unchanged. -/

/-- Create/update/delete statements on the three indexed entity tables,
plus `delete_project` (whose `ON DELETE CASCADE` child deletes fire the
delete triggers). -/
inductive EntityOp where
  | insertCharacter (r : CharacterRow)
  | updateCharacter (id : Int) (nv : CharacterRow)
  | deleteCharacter (id : Int)
  | insertPlot (r : PlotRow)
  | updatePlot (id : Int) (nv : PlotRow)
  | deletePlot (id : Int)
  | insertWorld (r : WorldRow)
  | updateWorld (id : Int) (nv : WorldRow)
  | deleteWorld (id : Int)
  | deleteProject (pid : Int)

/-- Field-level update of a character row: every column except the primary
key takes the new value. -/
def setCharFields (old nv : CharacterRow) : CharacterRow :=
  ⟨old.id, nv.project_id, nv.name, nv.description, nv.personality, nv.backstory,
    nv.appearance, nv.relationships, nv.importance⟩

/-- Field-level update of a plot row. -/
def setPlotFields (old nv : PlotRow) : PlotRow :=
  ⟨old.id, nv.project_id, nv.title, nv.description, nv.plot_type, nv.status⟩

/-- Field-level update of a world-building row. -/
def setWorldFields (old nv : WorldRow) : WorldRow :=
  ⟨old.id, nv.project_id, nv.name, nv.category, nv.description, nv.details⟩

/-- Does some project row carry this id (FOREIGN KEY target check)? -/
def projectExists (s : StoreState) (pid : Int) : Bool :=
  s.projects.any (fun p => p.id == pid)

/-- One entity statement together with its trigger effect. -/
def applyOp (s : StoreState) : EntityOp → StoreState
  | .insertCharacter r =>
    if projectExists s r.project_id && !(s.characters.any (fun c => c.id == r.id)) then
      ⟨s.projects, r :: s.characters, s.plots, s.world_building, s.scenes,
        charIndexRow r :: s.memory_search⟩
    else s
  | .updateCharacter id nv =>
    match s.characters.find? (fun c => c.id == id) with
    | none => s
    | some c =>
      if projectExists s nv.project_id then
        let c2 := setCharFields c nv
        ⟨s.projects,
          s.characters.map (fun ch => if ch.id == id then c2 else ch),
          s.plots, s.world_building, s.scenes,
          s.memory_search.map (fun m =>
            if m.content_type == "character" && m.entity_id == id then charUpdateMem c2 m else m)⟩
      else s
  | .deleteCharacter id =>
    ⟨s.projects, s.characters.filter (fun c => !(c.id == id)), s.plots, s.world_building,
      s.scenes,
      s.memory_search.filter (fun m => !(m.content_type == "character" && m.entity_id == id))⟩
  | .insertPlot r =>
    if projectExists s r.project_id && !(s.plots.any (fun p => p.id == r.id)) then
      ⟨s.projects, s.characters, r :: s.plots, s.world_building, s.scenes,
        plotIndexRow r :: s.memory_search⟩
    else s
  | .updatePlot id nv =>
    match s.plots.find? (fun p => p.id == id) with
    | none => s
    | some p =>
      if projectExists s nv.project_id then
        let p2 := setPlotFields p nv
        ⟨s.projects, s.characters,
          s.plots.map (fun pl => if pl.id == id then p2 else pl),
          s.world_building, s.scenes,
          s.memory_search.map (fun m =>
            if m.content_type == "plot" && m.entity_id == id then plotUpdateMem p2 m else m)⟩
      else s
  | .deletePlot id =>
    ⟨s.projects, s.characters, s.plots.filter (fun p => !(p.id == id)), s.world_building,
      s.scenes,
      s.memory_search.filter (fun m => !(m.content_type == "plot" && m.entity_id == id))⟩
  | .insertWorld r =>
    if projectExists s r.project_id && !(s.world_building.any (fun w => w.id == r.id)) then
      ⟨s.projects, s.characters, s.plots, r :: s.world_building, s.scenes,
        worldIndexRow r :: s.memory_search⟩
    else s
  | .updateWorld id nv =>
    match s.world_building.find? (fun w => w.id == id) with
    | none => s
    | some w =>
      if projectExists s nv.project_id then
        let w2 := setWorldFields w nv
        ⟨s.projects, s.characters, s.plots,
          s.world_building.map (fun wo => if wo.id == id then w2 else wo),
          s.scenes,
          s.memory_search.map (fun m =>
            if m.content_type == "world_building" && m.entity_id == id then worldUpdateMem w2 m else m)⟩
      else s
  | .deleteWorld id =>
    ⟨s.projects, s.characters, s.plots,
      s.world_building.filter (fun w => !(w.id == id)), s.scenes,
      s.memory_search.filter (fun m => !(m.content_type == "world_building" && m.entity_id == id))⟩
  | .deleteProject pid =>
    let deadChars := (s.characters.filter (fun c => c.project_id == pid)).map (fun c => c.id)
    let deadPlots := (s.plots.filter (fun p => p.project_id == pid)).map (fun p => p.id)
    let deadWorlds := (s.world_building.filter (fun w => w.project_id == pid)).map (fun w => w.id)
    ⟨s.projects.filter (fun p => !(p.id == pid)),
      s.characters.filter (fun c => !(c.project_id == pid)),
      s.plots.filter (fun p => !(p.project_id == pid)),
      s.world_building.filter (fun w => !(w.project_id == pid)),
      s.scenes.filter (fun sc => !(sc.project_id == pid)),
      s.memory_search.filter (fun m =>
        !((m.content_type == "character" && deadChars.contains m.entity_id) ||
          (m.content_type == "plot" && deadPlots.contains m.entity_id) ||
          (m.content_type == "world_building" && deadWorlds.contains m.entity_id)))⟩

/-- Replay a sequence of entity operations from the empty store. -/
def applyOps (ops : List EntityOp) : StoreState :=
  ops.foldl applyOp emptyStore

/-! ### The index-consistency invariant (claim C2) -/

/-- The identifying key of an index row: content type and entity id — the
columns every trigger uses in its WHERE clause. -/
def memKey (m : MemRow) : String × Int := (m.content_type, m.entity_id)

/-- Keys of all index rows. -/
def msKeys (s : StoreState) : List (String × Int) := s.memory_search.map memKey

/-- Keys of all live indexed entities. -/
def entKeys (s : StoreState) : List (String × Int) :=
  s.characters.map (fun c => ("character", c.id)) ++
    s.plots.map (fun p => ("plot", p.id)) ++
    s.world_building.map (fun w => ("world_building", w.id))

/-- Number of index rows for one entity key. -/
def countKey (l : List MemRow) (ct : String) (eid : Int) : Nat :=
  (l.filter (fun m => m.content_type == ct && m.entity_id == eid)).length

/-- Is some character row alive with this id? -/
def charLive (s : StoreState) (eid : Int) : Bool :=
  s.characters.any (fun c => c.id == eid)

/-- Is some plot row alive with this id? -/
def plotLive (s : StoreState) (eid : Int) : Bool :=
  s.plots.any (fun p => p.id == eid)

/-- Is some world-building row alive with this id? -/
def worldLive (s : StoreState) (eid : Int) : Bool :=
  s.world_building.any (fun w => w.id == eid)

/-- Internal invariant: primary keys are unique and the index rows are, up
to order, exactly one per live indexed entity. -/
def StoreInv (s : StoreState) : Prop :=
  (entKeys s).Nodup ∧ (msKeys s).Perm (entKeys s)

/-! ### Store queries and guarded mutations (`database.py` methods) -/

/-- Lexicographic order on character lists (SQLite BINARY collation: byte
order of the UTF-8 encoding, which agrees with codepoint order on ASCII). -/
def charListLt : List Char → List Char → Bool
  | [], [] => false
  | [], _ :: _ => true
  | _ :: _, [] => false
  | a :: as, b :: bs => a < b || (a == b && charListLt as bs)

/-- Strict BINARY-collation comparison of two strings. -/
def strLtB (a b : String) : Bool := charListLt a.data b.data

/-- Non-strict BINARY-collation comparison of two strings. -/
def strLeB (a b : String) : Bool := strLtB a b || a == b

/-- `ORDER BY importance DESC, name` comparison of `get_characters`. -/
def charOrderLe (a b : CharacterRow) : Bool :=
  strLtB b.importance a.importance ||
    (a.importance == b.importance && strLeB a.name b.name)

/-- `QuillDatabase.get_characters`: characters of the project ordered by
`importance DESC, name` (the JSON decoding of `relationships` is carried by
the row model itself). -/
def getCharacters (s : StoreState) (pid : Int) : List CharacterRow :=
  insertionSort charOrderLe (s.characters.filter (fun c => c.project_id == pid))

/-- `ORDER BY plot_type, title` comparison of `get_plots`. -/
def plotOrderLe (a b : PlotRow) : Bool :=
  strLtB a.plot_type b.plot_type ||
    (a.plot_type == b.plot_type && strLeB a.title b.title)

/-- `QuillDatabase.get_plots`. -/
def getPlots (s : StoreState) (pid : Int) : List PlotRow :=
  insertionSort plotOrderLe (s.plots.filter (fun p => p.project_id == pid))

/-- `ORDER BY category, name` comparison of `get_world_building`. -/
def worldOrderLe (a b : WorldRow) : Bool :=
  strLtB a.category b.category ||
    (a.category == b.category && strLeB a.name b.name)

/-- `QuillDatabase.get_world_building`. -/
def getWorldBuilding (s : StoreState) (pid : Int) : List WorldRow :=
  insertionSort worldOrderLe (s.world_building.filter (fun w => w.project_id == pid))

/-- The two error classes of `database.py` (messages abbreviated, without
interpolated values). -/
inductive QuillError where
  | validationError (msg : String)
  | databaseError (msg : String)
deriving DecidableEq

/-- Fresh AUTOINCREMENT rowid: one more than the largest id in the table. -/
def freshId (ids : List Int) : Int :=
  ids.foldr (fun i acc => max i acc) 0 + 1

/-- `QuillDatabase.create_project`: validates the name (empty/whitespace,
then length) and the target word count, inserts the *stripped* name, and
maps the UNIQUE-constraint failure on a duplicate name to a
`ValidationError`.  The second component is the store after the call; a
raised error leaves it unchanged. -/
def createProject (s : StoreState) (name description genre : String) (target_words : Int) :
    Except QuillError Int × StoreState :=
  if name == "" || pyStrip name == "" then
    (Except.error (QuillError.validationError "Project name cannot be empty"), s)
  else if 255 < name.length then
    (Except.error (QuillError.validationError "Project name too long"), s)
  else if target_words < 0 then
    (Except.error (QuillError.validationError "Target words must be non-negative"), s)
  else if s.projects.any (fun p => p.name == pyStrip name) then
    (Except.error (QuillError.validationError "Project already exists"), s)
  else
    let pid := freshId (s.projects.map (fun p => p.id))
    (Except.ok pid,
      ⟨⟨pid, pyStrip name, description, genre, target_words, 0⟩ :: s.projects,
        s.characters, s.plots, s.world_building, s.scenes, s.memory_search⟩)

/-- `QuillDatabase.add_character`: validates the project id (positive, then
existing), the name (non-empty after strip, then length at most 255) and the
importance if provided, then inserts the stripped name; the FTS5 insert
trigger adds the index row in the same unit. -/
def addCharacter (s : StoreState) (pid : Int) (name : String)
    (description personality backstory appearance : String)
    (relationships : List String) (importance : Option String) :
    Except QuillError Int × StoreState :=
  if pid ≤ 0 then
    (Except.error (QuillError.validationError "Project ID must be a positive integer"), s)
  else if !(projectExists s pid) then
    (Except.error (QuillError.validationError "Project does not exist"), s)
  else if name == "" || pyStrip name == "" then
    (Except.error (QuillError.validationError "Title cannot be empty"), s)
  else if 255 < name.length then
    (Except.error (QuillError.validationError "Title too long"), s)
  else if (match importance with
      | some imp => !(imp == "main" || imp == "supporting" || imp == "minor")
      | none => false) then
    (Except.error (QuillError.validationError "Invalid importance level"), s)
  else
    let cid := freshId (s.characters.map (fun c => c.id))
    let row : CharacterRow := ⟨cid, pid, pyStrip name, description, personality, backstory,
      appearance, relationships, importance.getD "minor"⟩
    (Except.ok cid,
      ⟨s.projects, row :: s.characters, s.plots, s.world_building, s.scenes,
        charIndexRow row :: s.memory_search⟩)

/-- `QuillDatabase.add_plot`: performs no validation at all — it inserts
directly; the only failure is the FOREIGN KEY constraint on a nonexistent
project, surfaced as a `DatabaseError` by the connection wrapper. -/
def addPlot (s : StoreState) (pid : Int) (title description plot_type status : String) :
    Except QuillError Int × StoreState :=
  if projectExists s pid then
    let plid := freshId (s.plots.map (fun p => p.id))
    let row : PlotRow := ⟨plid, pid, title, description, plot_type, status⟩
    (Except.ok plid,
      ⟨s.projects, s.characters, row :: s.plots, s.world_building, s.scenes,
        plotIndexRow row :: s.memory_search⟩)
  else
    (Except.error (QuillError.databaseError "FOREIGN KEY constraint failed"), s)

/-- `QuillDatabase.add_world_building`: likewise performs no validation. -/
def addWorldBuilding (s : StoreState) (pid : Int) (name category description details : String) :
    Except QuillError Int × StoreState :=
  if projectExists s pid then
    let wid := freshId (s.world_building.map (fun w => w.id))
    let row : WorldRow := ⟨wid, pid, name, category, description, details⟩
    (Except.ok wid,
      ⟨s.projects, s.characters, s.plots, row :: s.world_building, s.scenes,
        worldIndexRow row :: s.memory_search⟩)
  else
    (Except.error (QuillError.databaseError "FOREIGN KEY constraint failed"), s)

/-- The result dictionary of `get_project_stats` (`None` project yields the
empty dictionary, modelled as `none`). -/
structure ProjectStats where
  characters : Nat
  plots : Nat
  world_building : Nat
  scenes_total : Nat
  scenes_completed : Nat
  completion_rate : Rat
  word_current : Int
  word_target : Int
  word_progress : Rat
deriving DecidableEq

/-- `QuillDatabase.get_project_stats`.  `SUM(word_count)` over zero scene
rows is SQL NULL (`none`); the Python code guards `scene_stats[1] or 0` for
the current word count but divides the raw `scene_stats[1]` for the
progress, so with zero scenes and a positive target the division raises a
`TypeError` (wrapped into `DatabaseError` by the connection manager). -/
def getProjectStats (s : StoreState) (pid : Int) : Except QuillError (Option ProjectStats) :=
  match s.projects.find? (fun p => p.id == pid) with
  | none => Except.ok none
  | some p =>
    let scs := s.scenes.filter (fun sc => sc.project_id == pid)
    let total := scs.length
    let completed := (scs.filter (fun sc => sc.status == "complete")).length
    let sumWords : Option Int :=
      if scs.isEmpty then none else some ((scs.map (fun sc => sc.word_count)).sum)
    let completion : Rat := if 0 < total then (completed : Rat) / (total : Rat) * 100 else 0
    let current : Int := sumWords.getD 0
    let charCount := (s.characters.filter (fun c => c.project_id == pid)).length
    let plotCount := (s.plots.filter (fun pl => pl.project_id == pid)).length
    let worldCount := (s.world_building.filter (fun w => w.project_id == pid)).length
    if 0 < p.target_words then
      match sumWords with
      | some w =>
        Except.ok (some ⟨charCount, plotCount, worldCount, total, completed, completion,
          current, p.target_words, (w : Rat) / (p.target_words : Rat) * 100⟩)
      | none =>
        Except.error (QuillError.databaseError "TypeError: unsupported operand types")
    else
      Except.ok (some ⟨charCount, plotCount, worldCount, total, completed, completion,
        current, p.target_words, 0⟩)

/-! ### Concrete fixtures for claims C4, C5, C8 and C9 -/

/-- Does the call return an `ok` result? -/
def isOkResult {α : Type} (r : Except QuillError α × StoreState) : Bool :=
  match r.1 with
  | Except.ok _ => true
  | Except.error _ => false

/-- Does the call raise a `ValidationError`? -/
def isValidationResult {α : Type} (r : Except QuillError α × StoreState) : Bool :=
  match r.1 with
  | Except.error (QuillError.validationError _) => true
  | _ => false

/-- Does the call raise a `DatabaseError`? -/
def isDbErrorResult {α : Type} (r : Except QuillError α × StoreState) : Bool :=
  match r.1 with
  | Except.error (QuillError.databaseError _) => true
  | _ => false

/-- C4 fixture: a main character named Alice. -/
def c4Alice : CharacterRow := ⟨1, 1, "Alice", "", "", "", "", [], "main"⟩

/-- C4 fixture: a supporting character named Bob. -/
def c4Bob : CharacterRow := ⟨2, 1, "Bob", "", "", "", "", [], "supporting"⟩

/-- C4 fixture: a store holding one project with Alice and Bob. -/
def c4Store : StoreState :=
  ⟨[⟨1, "Embers", "", "", 0, 0⟩], [c4Alice, c4Bob], [], [], [],
    [charIndexRow c4Alice, charIndexRow c4Bob]⟩

/-- C5 fixture: a store holding one empty project with id 1. -/
def c5Store : StoreState := ⟨[⟨1, "Embers", "", "", 0, 0⟩], [], [], [], [], []⟩

/-- C8 fixture: a store already holding a project named "Embers". -/
def c8Store : StoreState := ⟨[⟨1, "Embers", "", "", 0, 0⟩], [], [], [], [], []⟩

/-- C9 fixture: a project with a positive word target and no scenes. -/
def c9Store : StoreState := ⟨[⟨1, "Embers", "", "", 1000, 0⟩], [], [], [], [], []⟩

/-- C9 fixture: a project with word target 0 and no scenes. -/
def c9ZeroStore : StoreState := ⟨[⟨2, "Sketch", "", "", 0, 0⟩], [], [], [], [], []⟩

/-! ### Relevance scoring (`ContextEngine.calculate_relevance_score`) -/

/-- Regex word character (ASCII model of backslash-w): alphanumeric or
underscore. -/
def isWordChar (c : Char) : Bool := c.isAlphanum || c == '_'

/-- `set(re.findall(r'\b\w+\b', s))`: the set of maximal word-character runs
of `s`. -/
def wordSet (s : String) : Finset String :=
  (((s.data.splitOnP (fun c => !isWordChar c)).filter (fun w => !w.isEmpty)).map
    (fun w => String.mk w)).toFinset

/-- A memory item as assembled by `get_relevant_context`: its searchable
projection plus the structured metadata the scorer inspects (`importance`,
`plot_type`, and the keys of a character's relationships mapping). -/
structure MemoryItem where
  content_type : String
  entity_id : Int
  title : String
  content : String
  importance : Option String
  plot_type : Option String
  relationships : List String
deriving DecidableEq

/-- Scoring weight `exact_match`. -/
def wExactMatch : Rat := 2

/-- Scoring weight `name_match`. -/
def wNameMatch : Rat := 3 / 2

/-- Scoring weight `semantic_similarity`. -/
def wSemanticSimilarity : Rat := 1

/-- Scoring weight `importance`. -/
def wImportanceBoost : Rat := 6 / 5

/-- Scoring weight `relationship`. -/
def wRelationshipBoost : Rat := 4 / 5

/-- `ContextEngine.calculate_relevance_score`, accumulating the score
signal by signal exactly as the Python code does (Python floats are
modelled by `Rat`; every weight is exactly representable). -/
def calculateRelevanceScore (m : MemoryItem) (current_text : String)
    (entities : Finset String) : Rat :=
  let title := lowerStr m.title
  let content := lowerStr m.content
  let current_lower := lowerStr current_text
  let score : Rat := 0
  let score := if strContains title current_lower then score + wExactMatch else score
  let score := score + wNameMatch *
    ((entities.filter (fun e =>
      strContains (lowerStr e) title || strContains (lowerStr e) content)).card : Rat)
  let current_words := wordSet current_lower
  let memory_words := wordSet content
  let score :=
    if current_words.Nonempty ∧ memory_words.Nonempty then
      let total_unique := (current_words ∪ memory_words).card
      let similarity : Rat :=
        if 0 < total_unique then
          (((current_words ∩ memory_words).card : Rat) / (total_unique : Rat))
        else 0
      score + similarity * wSemanticSimilarity
    else score
  let score :=
    if m.importance == some "main" then score + wImportanceBoost
    else if m.plot_type == some "main" then score + wImportanceBoost
    else score
  let score :=
    if m.content_type == "character" then
      if !m.relationships.isEmpty &&
          m.relationships.any (fun rel => strContains (lowerStr rel) current_lower) then
        score + wRelationshipBoost
      else score
    else score
  score

/-- Jaccard similarity of two word sets as the specification words it:
0 when either set is empty. -/
def jaccardSim (a b : Finset String) : Rat :=
  if a = ∅ ∨ b = ∅ then 0 else ((a ∩ b).card : Rat) / ((a ∪ b).card : Rat)

/-- The relevance score as the specification words it: a sum of five
independently-weighted signals. -/
def specRelevanceScore (m : MemoryItem) (excerpt : String) (mentions : Finset String) : Rat :=
  (if strContains (lowerStr m.title) (lowerStr excerpt) then wExactMatch else 0) +
    wNameMatch * ((mentions.filter (fun e =>
      strContains (lowerStr e) (lowerStr m.title) ||
        strContains (lowerStr e) (lowerStr m.content))).card : Rat) +
    wSemanticSimilarity *
      jaccardSim (wordSet (lowerStr excerpt)) (wordSet (lowerStr m.content)) +
    (if m.importance == some "main" || m.plot_type == some "main" then wImportanceBoost
      else 0) +
    (if m.content_type == "character" &&
        m.relationships.any (fun rel => strContains (lowerStr rel) (lowerStr excerpt)) then
      wRelationshipBoost else 0)

/-- Importance tier assigned to a candidate in `get_relevant_context`. -/
def importanceLevel (m : MemoryItem) : String :=
  if m.importance == some "main" || m.plot_type == some "main" then "high"
  else if m.importance == some "supporting" || m.plot_type == some "subplot" then "medium"
  else "normal"

/-- Candidate construction of `get_relevant_context`: only items with a
positive relevance score become candidates. -/
def toCandidate (current_text : String) (entities : Finset String) (m : MemoryItem) :
    Option ContextItem :=
  let relevance_score := calculateRelevanceScore m current_text entities
  if 0 < relevance_score then
    let content_text := m.title ++ ": " ++ m.content
    some ⟨m.content_type, m.entity_id, m.title, content_text, relevance_score,
      estimateTokens content_text, importanceLevel m⟩
  else none

/-! ### Entity extraction (`ContextEngine.extract_entities`)
ASCII scanner models of the three regex collectors; fuel-based recursion
(the fuel is the text length plus one, enough for the whole scan). -/

/-- Parse `[A-Z][a-z]+` with a maximal lowercase run. -/
def parseCapWord : List Char → Option (List Char × List Char)
  | [] => none
  | c :: cs =>
    if c.isUpper then
      let run := cs.takeWhile (fun d => d.isLower)
      if run.isEmpty then none
      else some (c :: run, cs.dropWhile (fun d => d.isLower))
    else none

/-- Word boundary after a match: end of text or a non-word character. -/
def tailNonWord : List Char → Bool
  | [] => true
  | d :: _ => !isWordChar d

/-- Greedy `(?:\s+[A-Z][a-z]+)*` extension of a title-case phrase; a group
whose word is followed by a word character cannot be part of any match
(the trailing word boundary would fail and no further group can start), so
it is not taken. -/
def phraseChunk : Nat → List Char → List Char → List Char × List Char
  | 0, acc, rest => (acc, rest)
  | fuel + 1, acc, rest =>
    let sp := rest.takeWhile isPySpace
    let rest2 := rest.dropWhile isPySpace
    if sp.isEmpty then (acc, rest)
    else
      match parseCapWord rest2 with
      | none => (acc, rest)
      | some (w, rest3) =>
        if tailNonWord rest3 then phraseChunk fuel (acc ++ sp ++ w) rest3
        else (acc, rest)

/-- `re.findall(r'\b[A-Z][a-z]+\b', text)`: left-to-right non-overlapping
scan; `prev` is the character before the current position (boundary check). -/
def capWordsAux : Nat → Option Char → List Char → List (List Char)
  | 0, _, _ => []
  | _ + 1, _, [] => []
  | fuel + 1, prev, c :: cs =>
    let boundaryOk :=
      match prev with
      | none => true
      | some p => !isWordChar p
    if boundaryOk then
      match parseCapWord (c :: cs) with
      | some (w, rest) =>
        if tailNonWord rest then w :: capWordsAux fuel (some (w.getLastD c)) rest
        else capWordsAux fuel (some c) cs
      | none => capWordsAux fuel (some c) cs
    else capWordsAux fuel (some c) cs

/-- `re.findall` for the title-case phrase pattern
`[A-Z][a-z]+(?:\s+[A-Z][a-z]+)*` with word boundaries. -/
def titlePhrasesAux : Nat → Option Char → List Char → List (List Char)
  | 0, _, _ => []
  | _ + 1, _, [] => []
  | fuel + 1, prev, c :: cs =>
    let boundaryOk :=
      match prev with
      | none => true
      | some p => !isWordChar p
    if boundaryOk then
      match parseCapWord (c :: cs) with
      | some (w, rest) =>
        if tailNonWord rest then
          let pr := phraseChunk fuel w rest
          pr.1 :: titlePhrasesAux fuel (some (pr.1.getLastD c)) pr.2
        else titlePhrasesAux fuel (some c) cs
      | none => titlePhrasesAux fuel (some c) cs
    else titlePhrasesAux fuel (some c) cs

/-- `re.findall(r'"([^"]+)"', text)`: non-overlapping non-empty quoted
spans. -/
def quotedSpans : Nat → List Char → List (List Char)
  | 0, _ => []
  | _ + 1, [] => []
  | fuel + 1, c :: cs =>
    if c == '"' then
      let content := cs.takeWhile (fun d => !(d == '"'))
      let rest := cs.dropWhile (fun d => !(d == '"'))
      match rest with
      | [] => []
      | _ :: rest2 =>
        if content.isEmpty then quotedSpans fuel cs
        else content :: quotedSpans fuel rest2
    else quotedSpans fuel cs

/-- The punctuation set of `word.strip('.,!?')`. -/
def isStripPunct (c : Char) : Bool := c == '.' || c == ',' || c == '!' || c == '?'

/-- `word.strip('.,!?')`. -/
def stripPunct (w : List Char) : List Char :=
  ((w.dropWhile isStripPunct).reverse.dropWhile isStripPunct).reverse

/-- The words collected from quoted spans: whitespace-split, keep words
longer than 2 characters, strip surrounding punctuation. -/
def quotedWords (fuel : Nat) (cs : List Char) : List String :=
  ((quotedSpans fuel cs).map (fun span =>
    (((span.splitOnP isPySpace).filter (fun w => !w.isEmpty)).filter
      (fun w => 2 < w.length)).map (fun w => String.mk (stripPunct w)))).flatten

/-- `ContextEngine.extract_entities`: the union of capitalized words,
quoted-span words, and title-case phrases, as a set. -/
def extractEntities (text : String) : Finset String :=
  let cs := text.data
  let fuel := cs.length + 1
  (((capWordsAux fuel none cs).map String.mk) ++ quotedWords fuel cs ++
    ((titlePhrasesAux fuel none cs).map String.mk)).toFinset

/-! ### Context session (`ContextEngine` state, `get_relevant_context`,
`update_context`) -/

/-- Mutable state of a `ContextEngine` instance. -/
structure ContextEngineState where
  working_tokens : Nat
  auto_context : Bool
  current_context : List ContextItem
deriving DecidableEq

/-- The memory item built from a character row (note: `appearance` is not
part of the scored content here, unlike the FTS index projection). -/
def charMemoryItem (c : CharacterRow) : MemoryItem :=
  ⟨"character", c.id, c.name,
    c.description ++ " " ++ c.personality ++ " " ++ c.backstory,
    some c.importance, none, c.relationships⟩

/-- The memory item built from a plot row. -/
def plotMemoryItem (p : PlotRow) : MemoryItem :=
  ⟨"plot", p.id, p.title, p.description, none, some p.plot_type, []⟩

/-- The memory item built from a world-building row. -/
def worldMemoryItem (w : WorldRow) : MemoryItem :=
  ⟨"world_building", w.id, w.name, w.description ++ " " ++ w.details, none, none, []⟩

/-- `ContextEngine.get_relevant_context`: empty-or-whitespace excerpts
return no context at once; otherwise all memory rows of the project are
scored and the positive-score candidates are packed under the budget. -/
def getRelevantContext (eng : ContextEngineState) (current_text : String)
    (s : StoreState) (pid : Int) : List ContextItem :=
  if pyStrip current_text == "" then []
  else
    let entities := extractEntities current_text
    let all_memory :=
      (getCharacters s pid).map charMemoryItem ++ (getPlots s pid).map plotMemoryItem ++
        (getWorldBuilding s pid).map worldMemoryItem
    let candidate_items := all_memory.filterMap (toCandidate current_text entities)
    if !candidate_items.isEmpty then
      optimizeContextForTokens eng.working_tokens candidate_items
    else []

/-- `ContextEngine.update_context`: with auto-context enabled, replace the
cached context with a freshly computed one. -/
def updateContext (eng : ContextEngineState) (current_text : String)
    (s : StoreState) (pid : Int) : ContextEngineState :=
  if eng.auto_context then
    ⟨eng.working_tokens, eng.auto_context, getRelevantContext eng current_text s pid⟩
  else eng

/-- C7 witness fixture: a memory item with no positive signal against the
excerpt "abc". -/
def c7ZeroItem : MemoryItem := ⟨"plot", 2, "xyz", "qqq", none, none, []⟩

/-- C10 witness fixture: an engine with auto-context enabled. -/
def c10Engine : ContextEngineState := ⟨144000, true, []⟩

theorem tokenSum_append (a b : List ContextItem) :
    tokenSum (a ++ b) = tokenSum a + tokenSum b := by
  simp [tokenSum]

theorem processGroup_invariant (working : Nat) (g : List ContextItem) :
    ∀ selected total, tokenSum selected = total → total ≤ working →
      tokenSum (processGroup working g selected total).1 =
        (processGroup working g selected total).2 ∧
      (processGroup working g selected total).2 ≤ working := by
  induction g with
  | nil =>
    intro selected total h1 h2
    simpa [processGroup] using And.intro h1 h2
  | cons item rest ih =>
    intro selected total h1 h2
    by_cases hfit : total + item.token_estimate ≤ working
    · have := ih (selected ++ [item]) (total + item.token_estimate)
        (by rw [tokenSum_append, h1]; simp [tokenSum]) hfit
      simpa [processGroup, hfit] using this
    · by_cases htr : 100 < working - total
      · have hval : processGroup working (item :: rest) selected total =
            (selected ++ [truncateItem item (working - total)], working) := by
          simp [processGroup, hfit, htr]
        rw [hval]
        refine ⟨?_, le_refl _⟩
        rw [tokenSum_append, h1]
        simp only [tokenSum, List.map, List.sum_cons, List.sum_nil, truncateItem]
        omega
      · simpa [processGroup, hfit, htr] using And.intro h1 h2

theorem processGroups_invariant (working : Nat) (gs : List (List ContextItem)) :
    ∀ selected total, tokenSum selected = total → total ≤ working →
      tokenSum (processGroups working gs selected total).1 =
        (processGroups working gs selected total).2 ∧
      (processGroups working gs selected total).2 ≤ working := by
  induction gs with
  | nil =>
    intro selected total h1 h2
    simpa [processGroups] using And.intro h1 h2
  | cons g gs ih =>
    intro selected total h1 h2
    have hg := processGroup_invariant working g selected total h1 h2
    by_cases hstop : working ≤ (processGroup working g selected total).2
    · simpa [processGroups, hstop] using hg
    · have := ih (processGroup working g selected total).1
        (processGroup working g selected total).2 hg.1 hg.2
      simpa [processGroups, hstop] using this

/-- Claim C1 (confirmed): for every candidate list and every working token
budget `B`, the list returned by `optimize_context_for_tokens` has a summed
`token_estimate` of at most `B`, including when the last item is a truncated
version (whose `token_estimate` is exactly the budget remainder). -/
theorem optimize_context_respects_budget (working : Nat)
    (candidate_items : List ContextItem) :
    tokenSum (optimizeContextForTokens working candidate_items) ≤ working := by
  have h := processGroups_invariant working
    [(insertionSort (fun a b => decide (b.relevance_score ≤ a.relevance_score)) candidate_items).filter
        (fun item => item.importance == "main" || item.importance == "high"),
      (insertionSort (fun a b => decide (b.relevance_score ≤ a.relevance_score)) candidate_items).filter
        (fun item => item.importance == "medium"),
      (insertionSort (fun a b => decide (b.relevance_score ≤ a.relevance_score)) candidate_items).filter
        (fun item =>
          !(item.importance == "main" || item.importance == "high" || item.importance == "medium"))]
    [] 0 (by simp [tokenSum]) (Nat.zero_le _)
  calc tokenSum (optimizeContextForTokens working candidate_items)
      = _ := by rw [optimizeContextForTokens]
    _ ≤ working := h.1 ▸ h.2

/-! ### Claim C3: what happens when an item fails to fit -/

/-- Claim C3 counterexample: with working budget 50, the high-tier item
(60 tokens) fails to fit and the remaining budget (50) does not exceed the
100-token threshold, yet the low-tier 10-token item is still appended
afterwards — the output is exactly that later-tier item.  This refutes the
claim that once an item fails to fit with remaining budget at or below the
threshold, selection stops and no item from any tier is appended. -/
theorem selection_continues_after_unfit_item :
    50 < c3BigItem.token_estimate ∧ (50 : Nat) - 0 ≤ 100 ∧
      optimizeContextForTokens 50 [c3BigItem, c3SmallItem] = [c3SmallItem] := by
  refine ⟨by decide, by decide, ?_⟩
  decide

/-- Claim C3 amended: once an item fails to fit in the remaining budget,
selection stops for the *current tier only*.  If the remaining budget
exceeds the 100-token threshold, a truncated version of the item — with
`token_estimate` equal to exactly the remaining budget — is appended and
nothing more is selected from any tier.  If the remaining budget does not
exceed the threshold, no truncated item is appended and no further item of
the current tier is selected, but selection proceeds with the subsequent
tiers (stopping only if the running total has already reached the budget). -/
theorem unfit_item_stops_current_tier (working : Nat) (item : ContextItem)
    (rest selected : List ContextItem) (total : Nat)
    (gs : List (List ContextItem))
    (hfit : working < total + item.token_estimate) :
    (100 < working - total →
        processGroups working ((item :: rest) :: gs) selected total =
          (selected ++ [truncateItem item (working - total)], working) ∧
        (truncateItem item (working - total)).token_estimate = working - total) ∧
    (working - total ≤ 100 →
        processGroups working ((item :: rest) :: gs) selected total =
          (if working ≤ total then (selected, total)
           else processGroups working gs selected total)) := by
  have hnfit : ¬ (total + item.token_estimate ≤ working) := by omega
  constructor
  · intro htr
    have hg : processGroup working (item :: rest) selected total =
        (selected ++ [truncateItem item (working - total)], working) := by
      simp [processGroup, hnfit, htr]
    refine ⟨?_, rfl⟩
    simp [processGroups, hg]
  · intro htr
    have hg : processGroup working (item :: rest) selected total = (selected, total) := by
      have h100 : ¬ (100 < working - total) := by omega
      simp [processGroup, hnfit, h100]
    simp only [processGroups, hg]

/-- Witness for the amended C3 theorem: at working budget 50, the 60-token
item fails to fit with remaining budget 50 ≤ 100, and selection moves on to
the next tier group instead of stopping. -/
theorem unfit_item_stops_current_tier_witness :
    processGroups 50 [[c3BigItem], [c3SmallItem]] [] 0 =
      processGroups 50 [[c3SmallItem]] [] 0 := by
  have h := (unfit_item_stops_current_tier 50 c3BigItem [] [] 0 [[c3SmallItem]]
    (by decide)).2 (by decide)
  simpa using h

/-! ### Claim C6: token estimation rounding -/

/-- Claim C6 counterexample: the spec says the estimate is the character
count divided by 4 *rounded up* (minimum 1); on a 7-character string the
code returns `max 1 (7 / 4) = 1` while rounding up would give 2. -/
theorem estimate_tokens_not_rounded_up :
    ¬ (estimateTokens "abcdefg" = max 1 (("abcdefg" : String).length + 3) / 4) := by
  decide

/-- Claim C6 amended: the token estimate is the character count divided by 4
rounded *down*, with a minimum result of 1: it is at least 1, it is exactly 1
on strings shorter than 4 characters, and on longer strings it is the unique
floor of length/4 (characterised by the two-sided bound). -/
theorem estimate_tokens_floor (s : String) :
    1 ≤ estimateTokens s ∧
    (s.length < 4 → estimateTokens s = 1) ∧
    (4 ≤ s.length → 4 * estimateTokens s ≤ s.length ∧
      s.length < 4 * estimateTokens s + 4) := by
  unfold estimateTokens
  rw [Nat.max_def]
  refine ⟨?_, ?_, ?_⟩
  · split <;> omega
  · intro h; split <;> omega
  · intro h; split <;> omega

/-- Witness for the amended C6 theorem at the 9-character string
"abcdefghi": the estimate is at least 1 and `4 * estimate ≤ 9 < 4 * estimate + 4`. -/
theorem estimate_tokens_floor_witness :
    4 * estimateTokens "abcdefghi" ≤ ("abcdefghi" : String).length ∧
      ("abcdefghi" : String).length < 4 * estimateTokens "abcdefghi" + 4 :=
  (estimate_tokens_floor "abcdefghi").2.2 (by decide)

/-! ### Claim C2: index consistency lemmas -/

theorem mem_entKeys_char (s : StoreState) (eid : Int) :
    ("character", eid) ∈ entKeys s ↔ charLive s eid = true := by
  simp [entKeys, charLive, List.any_eq_true]

theorem mem_entKeys_plot (s : StoreState) (eid : Int) :
    ("plot", eid) ∈ entKeys s ↔ plotLive s eid = true := by
  simp [entKeys, plotLive, List.any_eq_true]

theorem mem_entKeys_world (s : StoreState) (eid : Int) :
    ("world_building", eid) ∈ entKeys s ↔ worldLive s eid = true := by
  simp [entKeys, worldLive, List.any_eq_true]

theorem storeInv_empty : StoreInv emptyStore := by
  refine ⟨?_, ?_⟩ <;> simp [entKeys, msKeys, emptyStore]

theorem map_filter_key {β : Type} (rows : List β) (f : β → String × Int)
    (q : β → Bool) (pred : String × Int → Bool)
    (hpt : ∀ b ∈ rows, pred (f b) = q b) :
    (rows.filter q).map f = (rows.map f).filter pred := by
  rw [List.filter_map]
  congr 1
  exact List.filter_congr (fun b hb => (hpt b hb)) |>.symm

theorem storeInv_insertCharacter (s : StoreState) (r : CharacterRow) (h : StoreInv s) :
    StoreInv (applyOp s (.insertCharacter r)) := by
  by_cases hg : (projectExists s r.project_id && !(s.characters.any fun c => c.id == r.id)) = true
  · have hstate : applyOp s (.insertCharacter r) =
        ⟨s.projects, r :: s.characters, s.plots, s.world_building, s.scenes,
          charIndexRow r :: s.memory_search⟩ := by
      simp [applyOp, hg]
    have hnl : charLive s r.id = false := by
      have h2 := ((Bool.and_eq_true _ _).mp hg).2
      simpa [charLive] using h2
    have hent : entKeys ⟨s.projects, r :: s.characters, s.plots, s.world_building, s.scenes,
        charIndexRow r :: s.memory_search⟩ = ("character", r.id) :: entKeys s := by
      simp [entKeys]
    have hms : msKeys ⟨s.projects, r :: s.characters, s.plots, s.world_building, s.scenes,
        charIndexRow r :: s.memory_search⟩ = ("character", r.id) :: msKeys s := by
      simp [msKeys, charIndexRow, memKey]
    have hnotmem : ("character", r.id) ∉ entKeys s := by
      rw [mem_entKeys_char s r.id, hnl]
      simp
    rw [hstate]
    exact ⟨hent ▸ List.nodup_cons.mpr ⟨hnotmem, h.1⟩,
      hent ▸ hms ▸ List.Perm.cons _ h.2⟩
  · simpa [applyOp, hg] using h

theorem storeInv_updateCharacter (s : StoreState) (id : Int) (nv : CharacterRow)
    (h : StoreInv s) : StoreInv (applyOp s (.updateCharacter id nv)) := by
  cases hf : s.characters.find? (fun c => c.id == id) with
  | none => simpa [applyOp, hf] using h
  | some c =>
    by_cases hfk : projectExists s nv.project_id = true
    · have hcid : c.id = id := by
        have := List.find?_some hf
        simpa using this
      have hcs : List.map (fun c => (("character" : String), c.id))
          (List.map (fun ch => if ch.id == id then setCharFields c nv else ch) s.characters) =
          List.map (fun c => (("character" : String), c.id)) s.characters := by
        rw [List.map_map]
        refine List.map_congr_left (fun ch _ => ?_)
        by_cases hch : (ch.id == id) = true
        · have hche : ch.id = id := by simpa using hch
          simp [Function.comp, hch, setCharFields, hcid, hche]
        · simp [Function.comp, hch]
      have hmsm : List.map memKey
          (List.map (fun m =>
            if m.content_type == "character" && m.entity_id == id then
              charUpdateMem (setCharFields c nv) m else m) s.memory_search) =
          List.map memKey s.memory_search := by
        rw [List.map_map]
        refine List.map_congr_left (fun m _ => ?_)
        by_cases hm : (m.content_type == "character" && m.entity_id == id) = true
        · simp [Function.comp, hm, charUpdateMem, memKey]
        · simp [Function.comp, hm]
      have hstate : applyOp s (.updateCharacter id nv) =
          ⟨s.projects,
            s.characters.map (fun ch => if ch.id == id then setCharFields c nv else ch),
            s.plots, s.world_building, s.scenes,
            s.memory_search.map (fun m =>
              if m.content_type == "character" && m.entity_id == id then
                charUpdateMem (setCharFields c nv) m else m)⟩ := by
        simp [applyOp, hf, hfk]
      have hent : entKeys (applyOp s (.updateCharacter id nv)) = entKeys s := by
        rw [hstate]
        simp only [entKeys]
        rw [hcs]
      have hms : msKeys (applyOp s (.updateCharacter id nv)) = msKeys s := by
        rw [hstate]
        simp only [msKeys]
        exact hmsm
      exact ⟨hent ▸ h.1, hent ▸ hms ▸ h.2⟩
    · simpa [applyOp, hf, hfk] using h

theorem storeInv_deleteCharacter (s : StoreState) (id : Int) (h : StoreInv s) :
    StoreInv (applyOp s (.deleteCharacter id)) := by
  have hcs : List.map (fun c => (("character" : String), c.id))
      (s.characters.filter (fun c => !(c.id == id))) =
      (s.characters.map (fun c => (("character" : String), c.id))).filter
        (fun k => !(k.1 == "character" && k.2 == id)) :=
    map_filter_key _ _ _ _ (fun c _ => by simp)
  have hps : (s.plots.map (fun p => (("plot" : String), p.id))).filter
      (fun k => !(k.1 == "character" && k.2 == id)) =
      s.plots.map (fun p => (("plot" : String), p.id)) :=
    List.filter_eq_self.mpr (fun k hk => by
      rcases List.mem_map.mp hk with ⟨p, _, rfl⟩
      simp)
  have hws : (s.world_building.map (fun w => (("world_building" : String), w.id))).filter
      (fun k => !(k.1 == "character" && k.2 == id)) =
      s.world_building.map (fun w => (("world_building" : String), w.id)) :=
    List.filter_eq_self.mpr (fun k hk => by
      rcases List.mem_map.mp hk with ⟨w, _, rfl⟩
      simp)
  have hent : entKeys (applyOp s (.deleteCharacter id)) =
      (entKeys s).filter (fun k => !(k.1 == "character" && k.2 == id)) := by
    show entKeys ⟨s.projects, s.characters.filter (fun c => !(c.id == id)), s.plots,
      s.world_building, s.scenes,
      s.memory_search.filter (fun m =>
        !(m.content_type == "character" && m.entity_id == id))⟩ = _
    simp only [entKeys, List.filter_append]
    rw [hcs, hps, hws]
  have hms : msKeys (applyOp s (.deleteCharacter id)) =
      (msKeys s).filter (fun k => !(k.1 == "character" && k.2 == id)) := by
    show msKeys ⟨s.projects, s.characters.filter (fun c => !(c.id == id)), s.plots,
      s.world_building, s.scenes,
      s.memory_search.filter (fun m =>
        !(m.content_type == "character" && m.entity_id == id))⟩ = _
    simp only [msKeys]
    exact map_filter_key _ _ _ _ (fun m _ => rfl)
  exact ⟨hent ▸ (h.1.filter _), hent ▸ hms ▸ (h.2.filter _)⟩

theorem storeInv_insertPlot (s : StoreState) (r : PlotRow) (h : StoreInv s) :
    StoreInv (applyOp s (.insertPlot r)) := by
  by_cases hg : (projectExists s r.project_id && !(s.plots.any fun p => p.id == r.id)) = true
  · have hstate : applyOp s (.insertPlot r) =
        ⟨s.projects, s.characters, r :: s.plots, s.world_building, s.scenes,
          plotIndexRow r :: s.memory_search⟩ := by
      simp [applyOp, hg]
    have hnl : plotLive s r.id = false := by
      have h2 := ((Bool.and_eq_true _ _).mp hg).2
      simpa [plotLive] using h2
    have hnotmem : ("plot", r.id) ∉ entKeys s := by
      rw [mem_entKeys_plot s r.id, hnl]
      simp
    have hper : List.Perm
        (entKeys ⟨s.projects, s.characters, r :: s.plots, s.world_building, s.scenes,
          plotIndexRow r :: s.memory_search⟩) (("plot", r.id) :: entKeys s) := by
      simp only [entKeys, List.map_cons, List.cons_append, List.append_assoc]
      exact List.perm_middle
    have hms : msKeys ⟨s.projects, s.characters, r :: s.plots, s.world_building, s.scenes,
        plotIndexRow r :: s.memory_search⟩ = ("plot", r.id) :: msKeys s := by
      simp [msKeys, plotIndexRow, memKey]
    rw [hstate]
    refine ⟨hper.symm.nodup (List.nodup_cons.mpr ⟨hnotmem, h.1⟩), ?_⟩
    rw [hms]
    exact (List.Perm.cons _ h.2).trans hper.symm
  · simpa [applyOp, hg] using h

theorem storeInv_updatePlot (s : StoreState) (id : Int) (nv : PlotRow)
    (h : StoreInv s) : StoreInv (applyOp s (.updatePlot id nv)) := by
  cases hf : s.plots.find? (fun p => p.id == id) with
  | none => simpa [applyOp, hf] using h
  | some p =>
    by_cases hfk : projectExists s nv.project_id = true
    · have hcid : p.id = id := by
        have := List.find?_some hf
        simpa using this
      have hcs : List.map (fun p => (("plot" : String), p.id))
          (List.map (fun pl => if pl.id == id then setPlotFields p nv else pl) s.plots) =
          List.map (fun p => (("plot" : String), p.id)) s.plots := by
        rw [List.map_map]
        refine List.map_congr_left (fun pl _ => ?_)
        by_cases hch : (pl.id == id) = true
        · have hche : pl.id = id := by simpa using hch
          simp [Function.comp, hch, setPlotFields, hcid, hche]
        · simp [Function.comp, hch]
      have hmsm : List.map memKey
          (List.map (fun m =>
            if m.content_type == "plot" && m.entity_id == id then
              plotUpdateMem (setPlotFields p nv) m else m) s.memory_search) =
          List.map memKey s.memory_search := by
        rw [List.map_map]
        refine List.map_congr_left (fun m _ => ?_)
        by_cases hm : (m.content_type == "plot" && m.entity_id == id) = true
        · simp [Function.comp, hm, plotUpdateMem, memKey]
        · simp [Function.comp, hm]
      have hstate : applyOp s (.updatePlot id nv) =
          ⟨s.projects, s.characters,
            s.plots.map (fun pl => if pl.id == id then setPlotFields p nv else pl),
            s.world_building, s.scenes,
            s.memory_search.map (fun m =>
              if m.content_type == "plot" && m.entity_id == id then
                plotUpdateMem (setPlotFields p nv) m else m)⟩ := by
        simp [applyOp, hf, hfk]
      have hent : entKeys (applyOp s (.updatePlot id nv)) = entKeys s := by
        rw [hstate]
        simp only [entKeys]
        rw [hcs]
      have hms : msKeys (applyOp s (.updatePlot id nv)) = msKeys s := by
        rw [hstate]
        simp only [msKeys]
        exact hmsm
      exact ⟨hent ▸ h.1, hent ▸ hms ▸ h.2⟩
    · simpa [applyOp, hf, hfk] using h

theorem storeInv_deletePlot (s : StoreState) (id : Int) (h : StoreInv s) :
    StoreInv (applyOp s (.deletePlot id)) := by
  have hcs : (s.characters.map (fun c => (("character" : String), c.id))).filter
      (fun k => !(k.1 == "plot" && k.2 == id)) =
      s.characters.map (fun c => (("character" : String), c.id)) :=
    List.filter_eq_self.mpr (fun k hk => by
      rcases List.mem_map.mp hk with ⟨c, _, rfl⟩
      simp)
  have hps : List.map (fun p => (("plot" : String), p.id))
      (s.plots.filter (fun p => !(p.id == id))) =
      (s.plots.map (fun p => (("plot" : String), p.id))).filter
        (fun k => !(k.1 == "plot" && k.2 == id)) :=
    map_filter_key _ _ _ _ (fun p _ => by simp)
  have hws : (s.world_building.map (fun w => (("world_building" : String), w.id))).filter
      (fun k => !(k.1 == "plot" && k.2 == id)) =
      s.world_building.map (fun w => (("world_building" : String), w.id)) :=
    List.filter_eq_self.mpr (fun k hk => by
      rcases List.mem_map.mp hk with ⟨w, _, rfl⟩
      simp)
  have hent : entKeys (applyOp s (.deletePlot id)) =
      (entKeys s).filter (fun k => !(k.1 == "plot" && k.2 == id)) := by
    show entKeys ⟨s.projects, s.characters, s.plots.filter (fun p => !(p.id == id)),
      s.world_building, s.scenes,
      s.memory_search.filter (fun m =>
        !(m.content_type == "plot" && m.entity_id == id))⟩ = _
    simp only [entKeys, List.filter_append]
    rw [hcs, hps, hws]
  have hms : msKeys (applyOp s (.deletePlot id)) =
      (msKeys s).filter (fun k => !(k.1 == "plot" && k.2 == id)) := by
    show msKeys ⟨s.projects, s.characters, s.plots.filter (fun p => !(p.id == id)),
      s.world_building, s.scenes,
      s.memory_search.filter (fun m =>
        !(m.content_type == "plot" && m.entity_id == id))⟩ = _
    simp only [msKeys]
    exact map_filter_key _ _ _ _ (fun m _ => rfl)
  exact ⟨hent ▸ (h.1.filter _), hent ▸ hms ▸ (h.2.filter _)⟩

theorem storeInv_insertWorld (s : StoreState) (r : WorldRow) (h : StoreInv s) :
    StoreInv (applyOp s (.insertWorld r)) := by
  by_cases hg : (projectExists s r.project_id && !(s.world_building.any fun w => w.id == r.id)) = true
  · have hstate : applyOp s (.insertWorld r) =
        ⟨s.projects, s.characters, s.plots, r :: s.world_building, s.scenes,
          worldIndexRow r :: s.memory_search⟩ := by
      simp [applyOp, hg]
    have hnl : worldLive s r.id = false := by
      have h2 := ((Bool.and_eq_true _ _).mp hg).2
      simpa [worldLive] using h2
    have hnotmem : ("world_building", r.id) ∉ entKeys s := by
      rw [mem_entKeys_world s r.id, hnl]
      simp
    have hper : List.Perm
        (entKeys ⟨s.projects, s.characters, s.plots, r :: s.world_building, s.scenes,
          worldIndexRow r :: s.memory_search⟩) (("world_building", r.id) :: entKeys s) := by
      simp only [entKeys, List.map_cons]
      exact List.perm_middle
    have hms : msKeys ⟨s.projects, s.characters, s.plots, r :: s.world_building, s.scenes,
        worldIndexRow r :: s.memory_search⟩ = ("world_building", r.id) :: msKeys s := by
      simp [msKeys, worldIndexRow, memKey]
    rw [hstate]
    refine ⟨hper.symm.nodup (List.nodup_cons.mpr ⟨hnotmem, h.1⟩), ?_⟩
    rw [hms]
    exact (List.Perm.cons _ h.2).trans hper.symm
  · simpa [applyOp, hg] using h

theorem storeInv_updateWorld (s : StoreState) (id : Int) (nv : WorldRow)
    (h : StoreInv s) : StoreInv (applyOp s (.updateWorld id nv)) := by
  cases hf : s.world_building.find? (fun w => w.id == id) with
  | none => simpa [applyOp, hf] using h
  | some w =>
    by_cases hfk : projectExists s nv.project_id = true
    · have hcid : w.id = id := by
        have := List.find?_some hf
        simpa using this
      have hcs : List.map (fun w => (("world_building" : String), w.id))
          (List.map (fun wo => if wo.id == id then setWorldFields w nv else wo) s.world_building) =
          List.map (fun w => (("world_building" : String), w.id)) s.world_building := by
        rw [List.map_map]
        refine List.map_congr_left (fun wo _ => ?_)
        by_cases hch : (wo.id == id) = true
        · have hche : wo.id = id := by simpa using hch
          simp [Function.comp, hch, setWorldFields, hcid, hche]
        · simp [Function.comp, hch]
      have hmsm : List.map memKey
          (List.map (fun m =>
            if m.content_type == "world_building" && m.entity_id == id then
              worldUpdateMem (setWorldFields w nv) m else m) s.memory_search) =
          List.map memKey s.memory_search := by
        rw [List.map_map]
        refine List.map_congr_left (fun m _ => ?_)
        by_cases hm : (m.content_type == "world_building" && m.entity_id == id) = true
        · simp [Function.comp, hm, worldUpdateMem, memKey]
        · simp [Function.comp, hm]
      have hstate : applyOp s (.updateWorld id nv) =
          ⟨s.projects, s.characters, s.plots,
            s.world_building.map (fun wo => if wo.id == id then setWorldFields w nv else wo),
            s.scenes,
            s.memory_search.map (fun m =>
              if m.content_type == "world_building" && m.entity_id == id then
                worldUpdateMem (setWorldFields w nv) m else m)⟩ := by
        simp [applyOp, hf, hfk]
      have hent : entKeys (applyOp s (.updateWorld id nv)) = entKeys s := by
        rw [hstate]
        simp only [entKeys]
        rw [hcs]
      have hms : msKeys (applyOp s (.updateWorld id nv)) = msKeys s := by
        rw [hstate]
        simp only [msKeys]
        exact hmsm
      exact ⟨hent ▸ h.1, hent ▸ hms ▸ h.2⟩
    · simpa [applyOp, hf, hfk] using h

theorem storeInv_deleteWorld (s : StoreState) (id : Int) (h : StoreInv s) :
    StoreInv (applyOp s (.deleteWorld id)) := by
  have hcs : (s.characters.map (fun c => (("character" : String), c.id))).filter
      (fun k => !(k.1 == "world_building" && k.2 == id)) =
      s.characters.map (fun c => (("character" : String), c.id)) :=
    List.filter_eq_self.mpr (fun k hk => by
      rcases List.mem_map.mp hk with ⟨c, _, rfl⟩
      simp)
  have hps : (s.plots.map (fun p => (("plot" : String), p.id))).filter
      (fun k => !(k.1 == "world_building" && k.2 == id)) =
      s.plots.map (fun p => (("plot" : String), p.id)) :=
    List.filter_eq_self.mpr (fun k hk => by
      rcases List.mem_map.mp hk with ⟨p, _, rfl⟩
      simp)
  have hws : List.map (fun w => (("world_building" : String), w.id))
      (s.world_building.filter (fun w => !(w.id == id))) =
      (s.world_building.map (fun w => (("world_building" : String), w.id))).filter
        (fun k => !(k.1 == "world_building" && k.2 == id)) :=
    map_filter_key _ _ _ _ (fun w _ => by simp)
  have hent : entKeys (applyOp s (.deleteWorld id)) =
      (entKeys s).filter (fun k => !(k.1 == "world_building" && k.2 == id)) := by
    show entKeys ⟨s.projects, s.characters, s.plots,
      s.world_building.filter (fun w => !(w.id == id)), s.scenes,
      s.memory_search.filter (fun m =>
        !(m.content_type == "world_building" && m.entity_id == id))⟩ = _
    simp only [entKeys, List.filter_append]
    rw [hcs, hps, hws]
  have hms : msKeys (applyOp s (.deleteWorld id)) =
      (msKeys s).filter (fun k => !(k.1 == "world_building" && k.2 == id)) := by
    show msKeys ⟨s.projects, s.characters, s.plots,
      s.world_building.filter (fun w => !(w.id == id)), s.scenes,
      s.memory_search.filter (fun m =>
        !(m.content_type == "world_building" && m.entity_id == id))⟩ = _
    simp only [msKeys]
    exact map_filter_key _ _ _ _ (fun m _ => rfl)
  exact ⟨hent ▸ (h.1.filter _), hent ▸ hms ▸ (h.2.filter _)⟩

theorem storeInv_deleteProject (s : StoreState) (pid : Int) (h : StoreInv s) :
    StoreInv (applyOp s (.deleteProject pid)) := by
  have hndc : (s.characters.map (fun c => c.id)).Nodup := by
    have h1 : (s.characters.map (fun c => (("character" : String), c.id))).Nodup :=
      (h.1.of_append_left).of_append_left
    have h2 : ((s.characters.map (fun c => c.id)).map
        (fun i => (("character" : String), i))).Nodup := by
      rw [List.map_map]
      exact h1
    exact h2.of_map _
  have hndp : (s.plots.map (fun p => p.id)).Nodup := by
    have h1 : (s.plots.map (fun p => (("plot" : String), p.id))).Nodup :=
      (h.1.of_append_left).of_append_right
    have h2 : ((s.plots.map (fun p => p.id)).map (fun i => (("plot" : String), i))).Nodup := by
      rw [List.map_map]
      exact h1
    exact h2.of_map _
  have hndw : (s.world_building.map (fun w => w.id)).Nodup := by
    have h1 : (s.world_building.map (fun w => (("world_building" : String), w.id))).Nodup :=
      h.1.of_append_right
    have h2 : ((s.world_building.map (fun w => w.id)).map
        (fun i => (("world_building" : String), i))).Nodup := by
      rw [List.map_map]
      exact h1
    exact h2.of_map _
  set dc := (s.characters.filter (fun c => c.project_id == pid)).map (fun c => c.id) with hdc
  set dp := (s.plots.filter (fun p => p.project_id == pid)).map (fun p => p.id) with hdp
  set dw := (s.world_building.filter (fun w => w.project_id == pid)).map (fun w => w.id) with hdw
  set P : String × Int → Bool := fun k =>
    !((k.1 == "character" && dc.contains k.2) || (k.1 == "plot" && dp.contains k.2) ||
      (k.1 == "world_building" && dw.contains k.2)) with hP
  have hcontc : ∀ c ∈ s.characters, dc.contains c.id = (c.project_id == pid) := by
    intro c hc
    have hinj := List.inj_on_of_nodup_map hndc
    by_cases hp : c.project_id = pid
    · have hm : c.id ∈ dc :=
        List.mem_map.mpr ⟨c, List.mem_filter.mpr ⟨hc, by simpa using hp⟩, rfl⟩
      have h1 : dc.contains c.id = true := by
        simpa [List.contains] using hm
      rw [h1, eq_comm, beq_iff_eq]
      exact hp
    · have hm : ¬ c.id ∈ dc := by
        intro hmem
        rcases List.mem_map.mp hmem with ⟨c2, hc2, hid⟩
        rcases List.mem_filter.mp hc2 with ⟨hc2m, hc2p⟩
        have : c2 = c := hinj hc2m hc hid
        rw [this] at hc2p
        exact hp (by simpa using hc2p)
      have h1 : dc.contains c.id = false := by
        simpa [List.contains] using hm
      rw [h1, eq_comm]
      simpa using hp
  have hcontp : ∀ p ∈ s.plots, dp.contains p.id = (p.project_id == pid) := by
    intro p hpm
    have hinj := List.inj_on_of_nodup_map hndp
    by_cases hp : p.project_id = pid
    · have hm : p.id ∈ dp :=
        List.mem_map.mpr ⟨p, List.mem_filter.mpr ⟨hpm, by simpa using hp⟩, rfl⟩
      have h1 : dp.contains p.id = true := by
        simpa [List.contains] using hm
      rw [h1, eq_comm, beq_iff_eq]
      exact hp
    · have hm : ¬ p.id ∈ dp := by
        intro hmem
        rcases List.mem_map.mp hmem with ⟨p2, hp2, hid⟩
        rcases List.mem_filter.mp hp2 with ⟨hp2m, hp2p⟩
        have : p2 = p := hinj hp2m hpm hid
        rw [this] at hp2p
        exact hp (by simpa using hp2p)
      have h1 : dp.contains p.id = false := by
        simpa [List.contains] using hm
      rw [h1, eq_comm]
      simpa using hp
  have hcontw : ∀ w ∈ s.world_building, dw.contains w.id = (w.project_id == pid) := by
    intro w hwm
    have hinj := List.inj_on_of_nodup_map hndw
    by_cases hp : w.project_id = pid
    · have hm : w.id ∈ dw :=
        List.mem_map.mpr ⟨w, List.mem_filter.mpr ⟨hwm, by simpa using hp⟩, rfl⟩
      have h1 : dw.contains w.id = true := by
        simpa [List.contains] using hm
      rw [h1, eq_comm, beq_iff_eq]
      exact hp
    · have hm : ¬ w.id ∈ dw := by
        intro hmem
        rcases List.mem_map.mp hmem with ⟨w2, hw2, hid⟩
        rcases List.mem_filter.mp hw2 with ⟨hw2m, hw2p⟩
        have : w2 = w := hinj hw2m hwm hid
        rw [this] at hw2p
        exact hp (by simpa using hw2p)
      have h1 : dw.contains w.id = false := by
        simpa [List.contains] using hm
      rw [h1, eq_comm]
      simpa using hp
  have hstate : applyOp s (.deleteProject pid) =
      ⟨s.projects.filter (fun p => !(p.id == pid)),
        s.characters.filter (fun c => !(c.project_id == pid)),
        s.plots.filter (fun p => !(p.project_id == pid)),
        s.world_building.filter (fun w => !(w.project_id == pid)),
        s.scenes.filter (fun sc => !(sc.project_id == pid)),
        s.memory_search.filter (fun m => P (memKey m))⟩ := rfl
  have hcseg : List.map (fun c => (("character" : String), c.id))
      (s.characters.filter (fun c => !(c.project_id == pid))) =
      (s.characters.map (fun c => (("character" : String), c.id))).filter P := by
    have hstep : s.characters.filter (fun c => !(c.project_id == pid)) =
        s.characters.filter (fun c => !(dc.contains c.id)) :=
      List.filter_congr (fun c hc => by rw [hcontc c hc])
    rw [hstep]
    exact map_filter_key _ _ _ _ (fun c _ => by simp [hP])
  have hpseg : List.map (fun p => (("plot" : String), p.id))
      (s.plots.filter (fun p => !(p.project_id == pid))) =
      (s.plots.map (fun p => (("plot" : String), p.id))).filter P := by
    have hstep : s.plots.filter (fun p => !(p.project_id == pid)) =
        s.plots.filter (fun p => !(dp.contains p.id)) :=
      List.filter_congr (fun p hpm => by rw [hcontp p hpm])
    rw [hstep]
    exact map_filter_key _ _ _ _ (fun p _ => by simp [hP])
  have hwseg : List.map (fun w => (("world_building" : String), w.id))
      (s.world_building.filter (fun w => !(w.project_id == pid))) =
      (s.world_building.map (fun w => (("world_building" : String), w.id))).filter P := by
    have hstep : s.world_building.filter (fun w => !(w.project_id == pid)) =
        s.world_building.filter (fun w => !(dw.contains w.id)) :=
      List.filter_congr (fun w hwm => by rw [hcontw w hwm])
    rw [hstep]
    exact map_filter_key _ _ _ _ (fun w _ => by simp [hP])
  have hent : entKeys (applyOp s (.deleteProject pid)) = (entKeys s).filter P := by
    rw [hstate]
    simp only [entKeys, List.filter_append]
    rw [hcseg, hpseg, hwseg]
  have hms : msKeys (applyOp s (.deleteProject pid)) = (msKeys s).filter P := by
    rw [hstate]
    simp only [msKeys]
    exact map_filter_key _ _ _ _ (fun m _ => rfl)
  exact ⟨hent ▸ (h.1.filter _), hent ▸ hms ▸ (h.2.filter _)⟩

theorem storeInv_applyOp (s : StoreState) (h : StoreInv s) (op : EntityOp) :
    StoreInv (applyOp s op) := by
  cases op with
  | insertCharacter r => exact storeInv_insertCharacter s r h
  | updateCharacter id nv => exact storeInv_updateCharacter s id nv h
  | deleteCharacter id => exact storeInv_deleteCharacter s id h
  | insertPlot r => exact storeInv_insertPlot s r h
  | updatePlot id nv => exact storeInv_updatePlot s id nv h
  | deletePlot id => exact storeInv_deletePlot s id h
  | insertWorld r => exact storeInv_insertWorld s r h
  | updateWorld id nv => exact storeInv_updateWorld s id nv h
  | deleteWorld id => exact storeInv_deleteWorld s id h
  | deleteProject pid => exact storeInv_deleteProject s pid h

theorem storeInv_applyOps (ops : List EntityOp) : StoreInv (applyOps ops) := by
  have hgen : ∀ s, StoreInv s → StoreInv (ops.foldl applyOp s) := by
    induction ops with
    | nil => intro s hs; simpa using hs
    | cons op ops ih => intro s hs; exact ih _ (storeInv_applyOp s hs op)
  exact hgen emptyStore storeInv_empty

theorem countP_eq_of_nodup {α : Type} [BEq α] [LawfulBEq α] (l : List α) (hnd : l.Nodup)
    (p : α → Bool) (a : α) (hp : ∀ x, p x = true ↔ x = a) :
    l.countP p = if a ∈ l then 1 else 0 := by
  induction l with
  | nil => simp
  | cons x xs ih =>
    rcases List.nodup_cons.mp hnd with ⟨hxn, hxs⟩
    rw [List.countP_cons]
    by_cases hxa : x = a
    · subst hxa
      rw [(hp x).mpr rfl]
      have : ¬ x ∈ xs := hxn
      simp [ih hxs, this]
    · have hpx : p x = false := by
        cases hq : p x
        · rfl
        · exact absurd ((hp x).mp hq) hxa
      have hmem : (a ∈ x :: xs) ↔ (a ∈ xs) := by
        constructor
        · intro hm
          rcases List.mem_cons.mp hm with hax | hax
          · exact absurd hax.symm hxa
          · exact hax
        · exact fun hm => List.mem_cons_of_mem _ hm
      rw [hpx, if_congr hmem rfl rfl, ih hxs]
      simp

theorem countKey_eq_of_inv (s : StoreState) (h : StoreInv s) (ct : String) (eid : Int) :
    countKey s.memory_search ct eid = (if (ct, eid) ∈ entKeys s then 1 else 0) := by
  have h1 : countKey s.memory_search ct eid =
      List.countP (fun k => k.1 == ct && k.2 == eid) (msKeys s) := by
    rw [msKeys, List.countP_map, List.countP_eq_length_filter]
    rfl
  have h2 := List.Perm.countP_eq (fun k => k.1 == ct && k.2 == eid) h.2
  have h4 := countP_eq_of_nodup (entKeys s) h.1 (fun k => k.1 == ct && k.2 == eid)
    (ct, eid) (fun k => by simp [Prod.ext_iff])
  rw [h1, h2]
  exact h4

/-- Claim C2 (confirmed): replaying any sequence of create/update/delete
statements on Character, Plot and WorldElement rows (including cascading
project deletion) from the empty store, the `memory_search` index holds
exactly one row per live entity and zero rows for any entity that does not
exist; each entity mutation and its index mutation are modelled as one
atomic transition, as SQLite executes the FTS5 trigger within the same
statement. -/
theorem memory_search_index_consistent (ops : List EntityOp) (eid : Int) :
    countKey (applyOps ops).memory_search "character" eid =
      (if charLive (applyOps ops) eid then 1 else 0) ∧
    countKey (applyOps ops).memory_search "plot" eid =
      (if plotLive (applyOps ops) eid then 1 else 0) ∧
    countKey (applyOps ops).memory_search "world_building" eid =
      (if worldLive (applyOps ops) eid then 1 else 0) := by
  have hinv : StoreInv (applyOps ops) := storeInv_applyOps ops
  refine ⟨?_, ?_, ?_⟩
  · rw [countKey_eq_of_inv _ hinv, if_congr (mem_entKeys_char _ _) rfl rfl]
  · rw [countKey_eq_of_inv _ hinv, if_congr (mem_entKeys_plot _ _) rfl rfl]
  · rw [countKey_eq_of_inv _ hinv, if_congr (mem_entKeys_world _ _) rfl rfl]

/-! ### Claims C4, C5, C9 (code bugs) and C8 (validation) -/

/-- Claim C4 (code bug): `get_characters` orders by `importance DESC, name`,
which sorts the importance *strings* in descending byte order:
"supporting" > "minor" > "main".  On a project holding the main character
Alice and the supporting character Bob, the code returns Bob before Alice,
while the claim (and the enum semantics used everywhere else in the system)
requires main characters first. -/
theorem get_characters_orders_supporting_first :
    c4Alice.importance = "main" ∧ c4Bob.importance = "supporting" ∧
      getCharacters c4Store 1 = [c4Bob, c4Alice] := by
  refine ⟨rfl, rfl, ?_⟩
  decide

/-- Claim C5 (code bug): `add_plot` and `add_world_building` perform none of
the validation `add_character` performs: an empty primary field is accepted
and durably inserted, and a nonexistent project id fails with a
`DatabaseError` from the FOREIGN KEY constraint instead of a
`ValidationError`; by contrast, `add_character` rejects the empty name with
a `ValidationError` before any write. -/
theorem add_plot_world_skip_validation :
    isOkResult (addPlot c5Store 1 "" "" "subplot" "planned") = true ∧
    (addPlot c5Store 1 "" "" "subplot" "planned").2.plots.any
      (fun p => p.title == "") = true ∧
    isOkResult (addWorldBuilding c5Store 1 "" "location" "" "") = true ∧
    (addWorldBuilding c5Store 1 "" "location" "" "").2.world_building.any
      (fun w => w.name == "") = true ∧
    isDbErrorResult (addPlot emptyStore 1 "" "" "subplot" "planned") = true ∧
    isValidationResult (addCharacter c5Store 1 "" "" "" "" "" [] none) = true := by
  decide

/-- Claim C9 (code bug): with zero scenes `SUM(word_count)` is NULL, and
when the target word count is positive the progress computation divides
`None` by an int — a `TypeError` surfaced as a `DatabaseError` — so no
statistics (and no completion rate) are returned at all; the divide-by-zero
guards themselves work: with target 0 and zero scenes both the completion
rate and the progress are 0. -/
theorem get_project_stats_faults_on_zero_scenes :
    getProjectStats c9Store 1 =
      Except.error (QuillError.databaseError "TypeError: unsupported operand types") ∧
    getProjectStats c9ZeroStore 2 =
      Except.ok (some ⟨0, 0, 0, 0, 0, 0, 0, 0, 0⟩) := by
  refine ⟨rfl, rfl⟩

/-- Claim C8 (confirmed): `create_project` raises `ValidationError` when the
name is empty or only whitespace, and when a stored project already carries
the same name after trimming; in the duplicate case the store is unchanged
(the first project remains, no second row is created); on success the
project is stored under its *trimmed* name, which is why duplicates after
trim collide with the UNIQUE constraint. -/
theorem create_project_name_validation (s : StoreState)
    (name description genre : String) (tw : Int) :
    (pyStrip name = "" →
      createProject s name description genre tw =
        (Except.error (QuillError.validationError "Project name cannot be empty"), s)) ∧
    ((∃ p ∈ s.projects, p.name = pyStrip name) → pyStrip name ≠ "" →
      name.length ≤ 255 → 0 ≤ tw →
      createProject s name description genre tw =
        (Except.error (QuillError.validationError "Project already exists"), s)) ∧
    (∀ pid s2, createProject s name description genre tw = (Except.ok pid, s2) →
      s2.projects =
        ⟨pid, pyStrip name, description, genre, tw, 0⟩ :: s.projects) := by
  refine ⟨?_, ?_, ?_⟩
  · intro hstrip
    have hc : (name == "" || pyStrip name == "") = true := by
      simp [hstrip]
    simp [createProject, hc]
  · intro hdup hne hlen htw
    have hne2 : ¬ (name == "" || pyStrip name == "") = true := by
      simp only [Bool.or_eq_true, beq_iff_eq]
      rintro (rfl | hs)
      · exact hne rfl
      · exact hne hs
    have hlen2 : ¬ (255 < name.length) := by omega
    have htw2 : ¬ (tw < 0) := by omega
    have hany : (s.projects.any (fun p => p.name == pyStrip name)) = true := by
      rcases hdup with ⟨p, hp, hpn⟩
      exact List.any_eq_true.mpr ⟨p, hp, by simpa using hpn⟩
    simp [createProject, hne2, hlen2, htw2, hany]
  · intro pid s2 heq
    by_cases h1 : (name == "" || pyStrip name == "") = true
    · simp [createProject, h1] at heq
    · by_cases h2 : 255 < name.length
      · simp [createProject, h1, h2] at heq
      · by_cases h3 : tw < 0
        · simp [createProject, h1, h2, h3] at heq
        · by_cases h4 : (s.projects.any (fun p => p.name == pyStrip name)) = true
          · simp [createProject, h1, h2, h3, h4] at heq
          · simp only [createProject, h1, h2, h3, h4, if_false] at heq
            rw [Prod.mk.injEq] at heq
            obtain ⟨hpid, hs2⟩ := heq
            obtain rfl : freshId (s.projects.map (fun p => p.id)) = pid := by
              simpa using hpid
            rw [← hs2]
            simp

/-- Witness for C8: creating " Embers " when "Embers" already exists fails
with the duplicate `ValidationError` and leaves the store unchanged. -/
theorem create_project_name_validation_witness :
    createProject c8Store " Embers " "" "" 0 =
      (Except.error (QuillError.validationError "Project already exists"), c8Store) :=
  (create_project_name_validation c8Store " Embers " "" "" 0).2.1
    (by decide) (by decide) (by decide) (by decide)

/-! ### Claim C7: the relevance score formula -/

theorem ite_add_shape1 (c : Bool) (s x : Rat) :
    (if c then s + x else s) = s + (if c then x else 0) := by
  cases c <;> simp

theorem ite_add_shape2 (c1 c2 : Bool) (s x : Rat) :
    (if c1 then s + x else if c2 then s + x else s) = s + (if c1 || c2 then x else 0) := by
  cases c1 <;> cases c2 <;> simp

theorem ite_add_shape3 (c1 c2 : Bool) (s x : Rat) :
    (if c1 then (if c2 then s + x else s) else s) = s + (if c1 && c2 then x else 0) := by
  cases c1 <;> cases c2 <;> simp

theorem not_isEmpty_and_any {α : Type} (l : List α) (p : α → Bool) :
    (!l.isEmpty && l.any p) = l.any p := by
  cases l <;> simp

theorem jaccardSim_eq_branch (a b : Finset String) :
    (if a.Nonempty ∧ b.Nonempty then
      (if 0 < (a ∪ b).card then ((a ∩ b).card : Rat) / ((a ∪ b).card : Rat) else 0)
     else 0) = jaccardSim a b := by
  rw [jaccardSim]
  by_cases ha : a = ∅
  · simp [ha]
  · by_cases hb : b = ∅
    · simp [hb]
    · have hna : a.Nonempty := Finset.nonempty_iff_ne_empty.mpr ha
      have hnb : b.Nonempty := Finset.nonempty_iff_ne_empty.mpr hb
      have hu : 0 < (a ∪ b).card :=
        Finset.card_pos.mpr (hna.mono Finset.subset_union_left)
      simp [ha, hb, hna, hnb, hu]

theorem jaccard_add_step (a b : Finset String) (z : Rat) :
    (if a.Nonempty ∧ b.Nonempty then
        z + (if 0 < (a ∪ b).card then ((a ∩ b).card : Rat) / ((a ∪ b).card : Rat) else 0) *
          wSemanticSimilarity
      else z) = z + wSemanticSimilarity * jaccardSim a b := by
  rw [← jaccardSim_eq_branch a b]
  by_cases h : a.Nonempty ∧ b.Nonempty
  · simp only [if_pos h]
    ring
  · simp [h]

theorem jaccardSim_nonneg (a b : Finset String) : 0 ≤ jaccardSim a b := by
  rw [jaccardSim]
  split
  · exact le_refl 0
  · exact div_nonneg (Nat.cast_nonneg _) (Nat.cast_nonneg _)

theorem specRelevanceScore_nonneg (m : MemoryItem) (excerpt : String)
    (mentions : Finset String) : 0 ≤ specRelevanceScore m excerpt mentions := by
  rw [specRelevanceScore]
  have h1 : (0 : Rat) ≤ if strContains (lowerStr m.title) (lowerStr excerpt) then wExactMatch
      else 0 := by
    split <;> norm_num [wExactMatch]
  have h2 : (0 : Rat) ≤ wNameMatch * ((mentions.filter (fun e =>
      strContains (lowerStr e) (lowerStr m.title) ||
        strContains (lowerStr e) (lowerStr m.content))).card : Rat) := by
    have : (0 : Rat) ≤ wNameMatch := by norm_num [wNameMatch]
    exact mul_nonneg this (Nat.cast_nonneg _)
  have h3 : (0 : Rat) ≤ wSemanticSimilarity *
      jaccardSim (wordSet (lowerStr excerpt)) (wordSet (lowerStr m.content)) := by
    have : (0 : Rat) ≤ wSemanticSimilarity := by norm_num [wSemanticSimilarity]
    exact mul_nonneg this (jaccardSim_nonneg _ _)
  have h4 : (0 : Rat) ≤ if m.importance == some "main" || m.plot_type == some "main" then
      wImportanceBoost else 0 := by
    split <;> norm_num [wImportanceBoost]
  have h5 : (0 : Rat) ≤ if m.content_type == "character" &&
      m.relationships.any (fun rel => strContains (lowerStr rel) (lowerStr excerpt)) then
      wRelationshipBoost else 0 := by
    split <;> norm_num [wRelationshipBoost]
  have := add_nonneg (add_nonneg (add_nonneg (add_nonneg h1 h2) h3) h4) h5
  exact this

/-- Claim C7 (confirmed): the relevance score is exactly the sum of the five
independently-weighted signals the specification lists — 2.0 for a
case-insensitive title substring of the excerpt, 1.5 per mention contained
in title or content, 1.0 times the Jaccard similarity of the excerpt and
content word sets (0 when either is empty), 1.2 when the metadata marks
importance="main" or plot_type="main", and 0.8 for a character one of whose
relationship-target names appears in the excerpt; the score is never
negative, and an item with score 0 yields no candidate. -/
theorem relevance_score_matches_spec (m : MemoryItem) (current_text : String)
    (entities : Finset String) :
    calculateRelevanceScore m current_text entities =
      specRelevanceScore m current_text entities ∧
    0 ≤ calculateRelevanceScore m current_text entities ∧
    (calculateRelevanceScore m current_text entities = 0 →
      toCandidate current_text entities m = none) := by
  have heq : calculateRelevanceScore m current_text entities =
      specRelevanceScore m current_text entities := by
    rw [calculateRelevanceScore, specRelevanceScore]
    simp only []
    rw [ite_add_shape3, ite_add_shape2, jaccard_add_step, ite_add_shape1,
      not_isEmpty_and_any]
    ring
  refine ⟨heq, heq ▸ specRelevanceScore_nonneg m current_text entities, ?_⟩
  intro h0
  rw [toCandidate]
  simp [h0]

/-- Witness for C7 at a concrete item: the scorer agrees with the
specification formula at the fixture item and excerpt. -/
theorem relevance_score_matches_spec_witness :
    calculateRelevanceScore c7ZeroItem "abc" ∅ = specRelevanceScore c7ZeroItem "abc" ∅ :=
  (relevance_score_matches_spec c7ZeroItem "abc" ∅).1

/-! ### Claim C10: whitespace excerpts clear the context -/

/-- Claim C10 (confirmed): for an excerpt that is empty or only whitespace,
`get_relevant_context` returns the empty list without consulting the store
at all (the result is the same for every store state), so an auto-refresh
with such an excerpt replaces the cached context with the empty context. -/
theorem whitespace_excerpt_clears_context (eng : ContextEngineState)
    (current_text : String) (pid : Int)
    (h : current_text.data.all isPySpace = true) :
    (∀ s : StoreState, getRelevantContext eng current_text s pid = []) ∧
    (∀ s : StoreState, eng.auto_context = true →
      (updateContext eng current_text s pid).current_context = []) := by
  have hstrip : pyStrip current_text = "" := by
    have h1 : current_text.data.dropWhile isPySpace = [] :=
      List.dropWhile_eq_nil_iff.mpr (fun x hx => (List.all_eq_true.mp h) x hx)
    simp [pyStrip, h1]
  have hmain : ∀ s : StoreState, getRelevantContext eng current_text s pid = [] := by
    intro s
    simp [getRelevantContext, hstrip]
  refine ⟨hmain, fun s hauto => ?_⟩
  simp [updateContext, hauto, hmain s]

/-- Witness for C10: a one-space excerpt yields the empty context and an
auto-refresh stores the empty context, on the empty store. -/
theorem whitespace_excerpt_clears_context_witness :
    getRelevantContext c10Engine " " emptyStore 1 = [] ∧
    (updateContext c10Engine " " emptyStore 1).current_context = [] := by
  have h := whitespace_excerpt_clears_context c10Engine " " 1 (by decide)
  exact ⟨h.1 emptyStore, h.2 emptyStore rfl⟩
